import Mathlib

/-!
# Verification of the Smart Blockchain Voting System core

Shallow embedding of `src/contracts/VotingSystem.sol` (the election ledger
state machine that the spec calls THE CORE).  Addresses and timestamps are
modelled as `Nat` (`uint256` counters in the contract only ever grow by one
per call and Solidity ^0.8 checked arithmetic makes overflow a revert, so the
unbounded `Nat` reading is faithful on every state this development reaches).
Solidity `mapping`s with zero default values become total functions with
explicit defaults; `require` failures become `Except.error`, tagged with the
error kinds named by the spec (the comment on each branch quotes the
contract's revert string); `emit` becomes an explicit list of events returned
beside the new state, matching the contract where events live in the
transaction log, not in storage.
-/

namespace VotingSystem

/-- Error kinds of the spec's taxonomy, one per distinct `require` in the
contract. -/
inductive Err where
  | Unauthorized
  | ElectionNotFound
  | CandidateNotFound
  | InvalidTimeRange
  | StartNotInFuture
  | ElectionAlreadyStarted
  | ElectionNotActive
  | AlreadyVoted
  | InvalidCandidate
  | ElectionNotEnded
  | ResultsNotPublished
deriving DecidableEq, Repr

/-- `struct Candidate { string name; string info; uint256 voteCount; }` -/
structure Candidate where
  name : String
  info : String
  voteCount : Nat
deriving DecidableEq, Repr

/-- `struct Election { string name; string description; uint256 startTime;
uint256 endTime; bool exists; }` (the Solidity field `exists` is a Lean
keyword, hence `exists_`). -/
structure Election where
  name : String
  description : String
  startTime : Nat
  endTime : Nat
  exists_ : Bool
deriving DecidableEq, Repr

/-- The default (zero-initialized) candidate a Solidity mapping yields for an
absent key. -/
def defaultCandidate : Candidate := { name := "", info := "", voteCount := 0 }

/-- The default (zero-initialized) election record of an absent key; its
`exists_` flag is `false`. -/
def defaultElection : Election :=
  { name := "", description := "", startTime := 0, endTime := 0, exists_ := false }

/-- Contract storage: `owner`, `electionCount` and the five mappings. -/
structure VSState where
  owner : Nat
  electionCount : Nat
  elections : Nat → Election
  candidates : Nat → Nat → Candidate
  candidateCounts : Nat → Nat
  hasVoted : Nat → Nat → Bool
  resultsPublished : Nat → Bool

/-- Events emitted by the contract. -/
inductive Event where
  | ElectionCreated (electionId : Nat) (name : String) (startTime endTime : Nat)
  | CandidateAdded (electionId candidateId : Nat) (name : String)
  | VoteCast (electionId : Nat) (voter : Nat)
  | ResultsPublished (electionId : Nat)
deriving DecidableEq, Repr

/-- `constructor() { owner = msg.sender; electionCount = 0; }` with every
mapping zero-initialized. -/
def initState (sender : Nat) : VSState :=
  { owner := sender
    electionCount := 0
    elections := fun _ => defaultElection
    candidates := fun _ _ => defaultCandidate
    candidateCounts := fun _ => 0
    hasVoted := fun _ _ => false
    resultsPublished := fun _ => false }

/-- `createElection`: modifier `onlyOwner` ("Only the owner can call this
function" = `Unauthorized`), then `require(_startTime < _endTime)` ("End time
must be after start time" = `InvalidTimeRange`), then
`require(_startTime > block.timestamp)` ("Start time must be in the future" =
`StartNotInFuture`); on success stores the record at id `electionCount`,
emits `ElectionCreated` carrying that id, and increments the counter. -/
def createElection (s : VSState) (sender now : Nat)
    (name description : String) (startTime endTime : Nat) :
    Except Err (VSState × List Event) :=
  if sender ≠ s.owner then .error .Unauthorized
  else if ¬ startTime < endTime then .error .InvalidTimeRange
  else if ¬ startTime > now then .error .StartNotInFuture
  else .ok
    ({ s with
        elections := fun i =>
          if i = s.electionCount then
            { name := name, description := description,
              startTime := startTime, endTime := endTime, exists_ := true }
          else s.elections i
        electionCount := s.electionCount + 1 },
      [.ElectionCreated s.electionCount name startTime endTime])

/-- `addCandidate`: modifiers `onlyOwner` then `electionExists` ("Election
does not exist" = `ElectionNotFound`), then
`require(block.timestamp < elections[_electionId].startTime)` ("Cannot add
candidates after election has started" = `ElectionAlreadyStarted`); on
success stores the candidate at per-election id `candidateCounts[_electionId]`
with vote count 0, emits `CandidateAdded` carrying that id, and increments
the per-election counter. -/
def addCandidate (s : VSState) (sender now electionId : Nat)
    (name info : String) : Except Err (VSState × List Event) :=
  if sender ≠ s.owner then .error .Unauthorized
  else if ¬ (s.elections electionId).exists_ then .error .ElectionNotFound
  else if ¬ now < (s.elections electionId).startTime then
    .error .ElectionAlreadyStarted
  else
    let candidateId := s.candidateCounts electionId
    .ok
      ({ s with
          candidates := fun e c =>
            if e = electionId ∧ c = candidateId then
              { name := name, info := info, voteCount := 0 }
            else s.candidates e c
          candidateCounts := fun e =>
            if e = electionId then s.candidateCounts e + 1
            else s.candidateCounts e },
        [.CandidateAdded electionId candidateId name])

/-- `vote`: modifiers `electionExists` (`ElectionNotFound`), `electionActive`
("Election is not active" = `ElectionNotActive`, window
`startTime ≤ now ∧ now ≤ endTime` inclusive), `hasNotVoted` ("You have
already voted in this election" = `AlreadyVoted`), then
`require(_candidateId < candidateCounts[_electionId])` ("Invalid candidate" =
`InvalidCandidate`); on success increments the chosen candidate's vote count,
marks the sender as having voted, and emits `VoteCast`. -/
def vote (s : VSState) (sender now electionId candidateId : Nat) :
    Except Err (VSState × List Event) :=
  if ¬ (s.elections electionId).exists_ then .error .ElectionNotFound
  else if ¬ ((s.elections electionId).startTime ≤ now ∧
      now ≤ (s.elections electionId).endTime) then .error .ElectionNotActive
  else if s.hasVoted electionId sender then .error .AlreadyVoted
  else if ¬ candidateId < s.candidateCounts electionId then
    .error .InvalidCandidate
  else .ok
    ({ s with
        candidates := fun e c =>
          if e = electionId ∧ c = candidateId then
            { s.candidates e c with voteCount := (s.candidates e c).voteCount + 1 }
          else s.candidates e c
        hasVoted := fun e a =>
          if e = electionId ∧ a = sender then true else s.hasVoted e a },
      [.VoteCast electionId sender])

/-- `publishResults`: modifiers `onlyOwner`, `electionExists`, `electionEnded`
("Election has not ended yet" = `ElectionNotEnded`, requiring
`block.timestamp > endTime` strictly); on success sets the per-election
published flag and emits `ResultsPublished`. -/
def publishResults (s : VSState) (sender now electionId : Nat) :
    Except Err (VSState × List Event) :=
  if sender ≠ s.owner then .error .Unauthorized
  else if ¬ (s.elections electionId).exists_ then .error .ElectionNotFound
  else if ¬ now > (s.elections electionId).endTime then .error .ElectionNotEnded
  else .ok
    ({ s with
        resultsPublished := fun e =>
          if e = electionId then true else s.resultsPublished e },
      [.ResultsPublished electionId])

/-- `getElectionCount()` view. -/
def getElectionCount (s : VSState) : Nat := s.electionCount

/-- `getCandidateCount` view with its `electionExists` modifier. -/
def getCandidateCount (s : VSState) (electionId : Nat) : Except Err Nat :=
  if ¬ (s.elections electionId).exists_ then .error .ElectionNotFound
  else .ok (s.candidateCounts electionId)

/-- `getCandidate` view: checks `_electionId < electionCount` ("Election does
not exist"), `_candidateId < candidateCounts[_electionId]` ("Candidate does
not exist" = `CandidateNotFound`), then returns name and info only (never the
vote count). -/
def getCandidate (s : VSState) (electionId candidateId : Nat) :
    Except Err (String × String) :=
  if ¬ electionId < s.electionCount then .error .ElectionNotFound
  else if ¬ candidateId < s.candidateCounts electionId then
    .error .CandidateNotFound
  else .ok ((s.candidates electionId candidateId).name,
    (s.candidates electionId candidateId).info)

/-- `getVoteCount` view: checks `_electionId < electionCount`,
`_candidateId < candidateCounts[_electionId]`, then
`require(resultsPublished[_electionId])` ("Results have not been published
yet" = `ResultsNotPublished`), and returns the stored vote count. -/
def getVoteCount (s : VSState) (electionId candidateId : Nat) :
    Except Err Nat :=
  if ¬ electionId < s.electionCount then .error .ElectionNotFound
  else if ¬ candidateId < s.candidateCounts electionId then
    .error .CandidateNotFound
  else if ¬ s.resultsPublished electionId then .error .ResultsNotPublished
  else .ok (s.candidates electionId candidateId).voteCount

/-- One external transaction: the mutating entry points of the contract, each
carrying its `msg.sender` and the `block.timestamp` at which it runs. -/
inductive Op where
  | createElection (sender now : Nat) (name description : String)
      (startTime endTime : Nat)
  | addCandidate (sender now electionId : Nat) (name info : String)
  | vote (sender now electionId candidateId : Nat)
  | publishResults (sender now electionId : Nat)
deriving DecidableEq, Repr

/-- Dispatch an operation to the corresponding contract function. -/
def applyOp (s : VSState) : Op → Except Err (VSState × List Event)
  | .createElection sender now name description startTime endTime =>
      createElection s sender now name description startTime endTime
  | .addCandidate sender now electionId name info =>
      addCandidate s sender now electionId name info
  | .vote sender now electionId candidateId =>
      vote s sender now electionId candidateId
  | .publishResults sender now electionId =>
      publishResults s sender now electionId

/-- The storage after a transaction: a reverted (`require`-failing) call
leaves storage untouched, a successful one commits the new state. -/
def stepState (s : VSState) (op : Op) : VSState :=
  match applyOp s op with
  | .ok (s', _) => s'
  | .error _ => s

/-- Run a sequence of transactions from a state. -/
def run (s : VSState) : List Op → VSState
  | [] => s
  | op :: tr => run (stepState s op) tr

/-- States reachable from contract deployment by some transaction sequence. -/
def Reachable (s : VSState) : Prop :=
  ∃ deployer tr, run (initState deployer) tr = s

/-- Number of successful `vote` transactions for candidate `candidateId` of
election `electionId` along the run of `tr` from `s`. -/
def voteSuccCount (s : VSState) (tr : List Op) (electionId candidateId : Nat) :
    Nat :=
  match tr with
  | [] => 0
  | op :: rest =>
    (match op with
     | .vote _ _ e c =>
        if e = electionId ∧ c = candidateId ∧ (applyOp s op).isOk = true then 1
        else 0
     | _ => 0) + voteSuccCount (stepState s op) rest electionId candidateId

/-- Number of successful `vote` transactions sent by `voterId` for election
`electionId` along the run of `tr` from `s`. -/
def voteSuccBy (s : VSState) (tr : List Op) (electionId voterId : Nat) : Nat :=
  match tr with
  | [] => 0
  | op :: rest =>
    (match op with
     | .vote sender _ e _ =>
        if e = electionId ∧ sender = voterId ∧ (applyOp s op).isOk = true then 1
        else 0
     | _ => 0) + voteSuccBy (stepState s op) rest electionId voterId

/-- Whether some `publishResults` transaction for `electionId` succeeds along
the run of `tr` from `s`. -/
def pubSucceeded (s : VSState) (tr : List Op) (electionId : Nat) : Bool :=
  match tr with
  | [] => false
  | op :: rest =>
    (match op with
     | .publishResults _ _ e => decide (e = electionId) && (applyOp s op).isOk
     | _ => false) || pubSucceeded (stepState s op) rest electionId

/-- Structural invariants of every reachable storage state: an election
record's `exists_` flag is set exactly for the ids below `electionCount`,
candidate rosters of unallocated election ids are empty, and candidate slots
beyond an election's roster still hold a zero vote count. -/
def GoodState (s : VSState) : Prop :=
  (∀ i, (s.elections i).exists_ = true ↔ i < s.electionCount) ∧
  (∀ e, s.electionCount ≤ e → s.candidateCounts e = 0) ∧
  (∀ e c, s.candidateCounts e ≤ c → (s.candidates e c).voteCount = 0)

/-- Ballot/tally coherence: for every election id there is a finite set `V`
of exactly the identities recorded as having voted, and the vote counts of
the election's roster sum to its cardinality. -/
def TallyInv (s : VSState) : Prop :=
  ∀ e, ∃ V : Finset Nat,
    (∀ a, s.hasVoted e a = true ↔ a ∈ V) ∧
    (∑ c ∈ Finset.range (s.candidateCounts e), (s.candidates e c).voteCount) =
      V.card

/-- A concrete deployment scenario used to exercise the theorems: deployer
`0` creates election `0` with window `[10, 20]` and adds two candidates
before the start time. -/
def trSetup : List Op :=
  [.createElection 0 5 "Board" "annual" 10 20,
   .addCandidate 0 6 0 "Alice" "a",
   .addCandidate 0 7 0 "Bob" "b"]

/-- The storage reached by `trSetup`. -/
def sampleState : VSState := run (initState 0) trSetup

/-- `sampleState` after voter `42` successfully votes for candidate `0` at
time `15`. -/
def sampleVoted : VSState := run (initState 0) (trSetup ++ [.vote 42 15 0 0])

/-- The scenario continued to completion: the vote at time `15`, then the
administrator publishes the results at time `21`. -/
def trPub : List Op := trSetup ++ [.vote 42 15 0 0, .publishResults 0 21 0]

/-- The storage reached by `trPub`. -/
def statePub : VSState := run (initState 0) trPub

lemma run_nil (s : VSState) : run s [] = s := rfl

lemma run_cons (s : VSState) (op : Op) (tr : List Op) :
    run s (op :: tr) = run (stepState s op) tr := rfl

lemma stepState_of_ok {s s' : VSState} {op : Op} {ev : List Event}
    (h : applyOp s op = .ok (s', ev)) : stepState s op = s' := by
  unfold stepState
  rw [h]

lemma stepState_of_error {s : VSState} {op : Op} {err : Err}
    (h : applyOp s op = .error err) : stepState s op = s := by
  unfold stepState
  rw [h]

lemma run_preserve (P : VSState → Prop)
    (hstep : ∀ s op, P s → P (stepState s op)) :
    ∀ (tr : List Op) (s : VSState), P s → P (run s tr)
  | [], _, h => h
  | op :: tr, s, h => run_preserve P hstep tr (stepState s op) (hstep s op h)

lemma vote_ok_iff (s : VSState) (sender now electionId candidateId : Nat) :
    (vote s sender now electionId candidateId).isOk = true ↔
      ((s.elections electionId).exists_ = true ∧
        (s.elections electionId).startTime ≤ now ∧
        now ≤ (s.elections electionId).endTime ∧
        s.hasVoted electionId sender = false ∧
        candidateId < s.candidateCounts electionId) := by
  unfold vote
  split_ifs with h1 h2 h3 h4 <;>
    simp_all [Except.isOk, Except.toBool]

lemma vote_eq_ok (s : VSState) (sender now electionId candidateId : Nat)
    (hex : (s.elections electionId).exists_ = true)
    (h1 : (s.elections electionId).startTime ≤ now)
    (h2 : now ≤ (s.elections electionId).endTime)
    (hv : s.hasVoted electionId sender = false)
    (hc : candidateId < s.candidateCounts electionId) :
    vote s sender now electionId candidateId = .ok
      ({ s with
          candidates := fun e c =>
            if e = electionId ∧ c = candidateId then
              { s.candidates e c with
                  voteCount := (s.candidates e c).voteCount + 1 }
            else s.candidates e c
          hasVoted := fun e a =>
            if e = electionId ∧ a = sender then true else s.hasVoted e a },
        [.VoteCast electionId sender]) := by
  unfold vote
  simp [hex, h1, h2, hv, hc]

lemma createElection_eq_ok (s : VSState) (sender now : Nat)
    (name description : String) (startTime endTime : Nat)
    (hown : sender = s.owner) (hlt : startTime < endTime)
    (hfut : now < startTime) :
    createElection s sender now name description startTime endTime = .ok
      ({ s with
          elections := fun i =>
            if i = s.electionCount then
              { name := name, description := description,
                startTime := startTime, endTime := endTime, exists_ := true }
            else s.elections i
          electionCount := s.electionCount + 1 },
        [.ElectionCreated s.electionCount name startTime endTime]) := by
  unfold createElection
  simp [hown, hlt, hfut]

lemma addCandidate_eq_ok (s : VSState) (sender now electionId : Nat)
    (name info : String) (hown : sender = s.owner)
    (hex : (s.elections electionId).exists_ = true)
    (hfut : now < (s.elections electionId).startTime) :
    addCandidate s sender now electionId name info = .ok
      ({ s with
          candidates := fun e c =>
            if e = electionId ∧ c = s.candidateCounts electionId then
              { name := name, info := info, voteCount := 0 }
            else s.candidates e c
          candidateCounts := fun e =>
            if e = electionId then s.candidateCounts e + 1
            else s.candidateCounts e },
        [.CandidateAdded electionId (s.candidateCounts electionId) name]) := by
  unfold addCandidate
  simp [hown, hex, hfut]

lemma goodState_init (deployer : Nat) : GoodState (initState deployer) := by
  refine ⟨fun i => ?_, fun e _ => rfl, fun e c _ => rfl⟩
  simp [initState, defaultElection]

lemma goodState_step (s : VSState) (op : Op) (h : GoodState s) :
    GoodState (stepState s op) := by
  obtain ⟨hex, hcnt, hvc⟩ := h
  cases hres : applyOp s op with
  | error err =>
    rw [stepState_of_error hres]
    exact ⟨hex, hcnt, hvc⟩
  | ok r =>
    obtain ⟨s', ev⟩ := r
    rw [stepState_of_ok hres]
    cases op with
    | createElection sender now name description startTime endTime =>
      simp only [applyOp] at hres
      unfold createElection at hres
      split_ifs at hres
      rw [Except.ok.injEq, Prod.mk.injEq] at hres
      obtain ⟨hs', -⟩ := hres
      subst hs'
      dsimp only [GoodState]
      refine ⟨fun i => ?_, fun e he => hcnt e (by omega), hvc⟩
      by_cases hi : i = s.electionCount
      · subst hi
        simp
      · simpa [hi] using (hex i).trans (by omega)
    | addCandidate sender now electionId name info =>
      simp only [applyOp] at hres
      unfold addCandidate at hres
      split_ifs at hres with h1 h2 h3
      have hexx : (s.elections electionId).exists_ = true := by simpa using h2
      rw [Except.ok.injEq, Prod.mk.injEq] at hres
      obtain ⟨hs', -⟩ := hres
      subst hs'
      dsimp only [GoodState]
      refine ⟨hex, fun e he => ?_, fun e c hc => ?_⟩
      · by_cases heq : e = electionId
        · rw [heq] at he ⊢
          exact absurd ((hex electionId).mp hexx) (by omega)
        · simpa [heq] using hcnt e he
      · by_cases heq : e = electionId
        · rw [heq] at hc ⊢
          simp at hc
          rw [if_neg (by rintro ⟨-, hcc⟩; omega)]
          exact hvc electionId c (by omega)
        · simp only [if_neg heq] at hc
          rw [if_neg (by rintro ⟨he', -⟩; exact heq he')]
          exact hvc e c hc
    | vote sender now electionId candidateId =>
      simp only [applyOp] at hres
      unfold vote at hres
      split_ifs at hres with h1 h2 h3 h4
      have hlt : candidateId < s.candidateCounts electionId := by simpa using h4
      rw [Except.ok.injEq, Prod.mk.injEq] at hres
      obtain ⟨hs', -⟩ := hres
      subst hs'
      dsimp only [GoodState]
      refine ⟨hex, hcnt, fun e c hc => ?_⟩
      by_cases heq : e = electionId ∧ c = candidateId
      · exfalso
        obtain ⟨he, hcc⟩ := heq
        rw [he, hcc] at hc
        omega
      · rw [if_neg heq]
        exact hvc e c hc
    | publishResults sender now electionId =>
      simp only [applyOp] at hres
      unfold publishResults at hres
      split_ifs at hres
      rw [Except.ok.injEq, Prod.mk.injEq] at hres
      obtain ⟨hs', -⟩ := hres
      subst hs'
      exact ⟨hex, hcnt, hvc⟩

lemma reachable_goodState {s : VSState} (h : Reachable s) : GoodState s := by
  obtain ⟨deployer, tr, rfl⟩ := h
  exact run_preserve GoodState goodState_step tr _ (goodState_init deployer)

lemma sum_ite_point (n c₀ : Nat) (f : Nat → Nat) (h : c₀ < n) :
    (∑ i ∈ Finset.range n, if i = c₀ then f i + 1 else f i) =
      (∑ i ∈ Finset.range n, f i) + 1 := by
  have hsplit : ∀ i, (if i = c₀ then f i + 1 else f i) =
      f i + (if i = c₀ then 1 else 0) := by
    intro i
    split <;> simp
  simp_rw [hsplit]
  rw [Finset.sum_add_distrib, Finset.sum_ite_eq' (Finset.range n) c₀ fun _ => 1]
  simp [h]

lemma tallyInv_init (deployer : Nat) : TallyInv (initState deployer) := by
  intro e
  exact ⟨∅, by simp [initState], by simp [initState]⟩

lemma tallyInv_step (s : VSState) (op : Op) (h : TallyInv s) :
    TallyInv (stepState s op) := by
  cases hres : applyOp s op with
  | error err =>
    rw [stepState_of_error hres]
    exact h
  | ok r =>
    obtain ⟨s', ev⟩ := r
    rw [stepState_of_ok hres]
    cases op with
    | createElection sender now name description startTime endTime =>
      simp only [applyOp] at hres
      unfold createElection at hres
      split_ifs at hres
      rw [Except.ok.injEq, Prod.mk.injEq] at hres
      obtain ⟨hs', -⟩ := hres
      subst hs'
      exact h
    | addCandidate sender now electionId name info =>
      simp only [applyOp] at hres
      unfold addCandidate at hres
      split_ifs at hres with h1 h2 h3
      rw [Except.ok.injEq, Prod.mk.injEq] at hres
      obtain ⟨hs', -⟩ := hres
      subst hs'
      intro e
      obtain ⟨V, hV, hsum⟩ := h e
      refine ⟨V, hV, ?_⟩
      dsimp only
      by_cases heq : e = electionId
      · subst heq
        simp only [eq_self_iff_true, true_and, if_true]
        rw [Finset.sum_range_succ]
        have hrest : ∀ i ∈ Finset.range (s.candidateCounts e),
            ((if i = s.candidateCounts e then
                { name := name, info := info, voteCount := 0 }
              else s.candidates e i) : Candidate).voteCount =
              (s.candidates e i).voteCount := by
          intro i hi
          have hi' : i ≠ s.candidateCounts e :=
            Nat.ne_of_lt (Finset.mem_range.mp hi)
          rw [if_neg hi']
        rw [Finset.sum_congr rfl hrest]
        simp [hsum]
      · have hne : ∀ i : Nat, ¬(e = electionId ∧ i = s.candidateCounts electionId) := by
          intro i hand
          exact heq hand.1
        simp only [if_neg heq, if_neg (hne _)]
        exact hsum
    | vote sender now electionId candidateId =>
      simp only [applyOp] at hres
      unfold vote at hres
      split_ifs at hres with h1 h2 h3 h4
      have hlt : candidateId < s.candidateCounts electionId := by simpa using h4
      have hnv : s.hasVoted electionId sender = false := by simpa using h3
      rw [Except.ok.injEq, Prod.mk.injEq] at hres
      obtain ⟨hs', -⟩ := hres
      subst hs'
      intro e
      obtain ⟨V, hV, hsum⟩ := h e
      by_cases heq : e = electionId
      · subst heq
        refine ⟨insert sender V, fun a => ?_, ?_⟩
        · dsimp only
          by_cases ha : a = sender
          · simp [ha]
          · simp only [ha, and_false, if_false, Finset.mem_insert]
            rw [hV a]
            simp [ha]
        · dsimp only
          have hnotin : sender ∉ V := by
            intro hmem
            rw [(hV sender).mpr hmem] at hnv
            cases hnv
          rw [Finset.card_insert_of_not_mem hnotin, ← hsum]
          have hbump : ∀ i ∈ Finset.range (s.candidateCounts e),
              ((if e = e ∧ i = candidateId then
                  { name := (s.candidates e i).name, info := (s.candidates e i).info,
                    voteCount := (s.candidates e i).voteCount + 1 }
                else s.candidates e i) : Candidate).voteCount =
                (if i = candidateId then (s.candidates e i).voteCount + 1
                  else (s.candidates e i).voteCount) := by
            intro i hi
            by_cases hic : i = candidateId
            · simp [hic]
            · simp [hic]
          rw [Finset.sum_congr rfl hbump,
            sum_ite_point (s.candidateCounts e) candidateId
              (fun i => (s.candidates e i).voteCount) hlt]
      · refine ⟨V, fun a => ?_, ?_⟩
        · dsimp only
          rw [if_neg (by rintro ⟨he', -⟩; exact heq he')]
          exact hV a
        · dsimp only
          have hrest : ∀ i ∈ Finset.range (s.candidateCounts e),
              ((if e = electionId ∧ i = candidateId then
                  { name := (s.candidates e i).name, info := (s.candidates e i).info,
                    voteCount := (s.candidates e i).voteCount + 1 }
                else s.candidates e i) : Candidate).voteCount =
                (s.candidates e i).voteCount := by
            intro i hi
            rw [if_neg (by rintro ⟨he', -⟩; exact heq he')]
          rw [Finset.sum_congr rfl hrest]
          exact hsum
    | publishResults sender now electionId =>
      simp only [applyOp] at hres
      unfold publishResults at hres
      split_ifs at hres
      rw [Except.ok.injEq, Prod.mk.injEq] at hres
      obtain ⟨hs', -⟩ := hres
      subst hs'
      exact h

lemma reachable_tallyInv {s : VSState} (h : Reachable s) : TallyInv s := by
  obtain ⟨deployer, tr, rfl⟩ := h
  exact run_preserve TallyInv tallyInv_step tr _ (tallyInv_init deployer)

lemma voteSuccCount_cons (s : VSState) (op : Op) (tr : List Op)
    (electionId candidateId : Nat) :
    voteSuccCount s (op :: tr) electionId candidateId =
      (match op with
       | .vote _ _ e c =>
          if e = electionId ∧ c = candidateId ∧ (applyOp s op).isOk = true then 1
          else 0
       | _ => 0) + voteSuccCount (stepState s op) tr electionId candidateId := rfl

lemma voteSuccBy_cons (s : VSState) (op : Op) (tr : List Op)
    (electionId voterId : Nat) :
    voteSuccBy s (op :: tr) electionId voterId =
      (match op with
       | .vote sender _ e _ =>
          if e = electionId ∧ sender = voterId ∧ (applyOp s op).isOk = true then 1
          else 0
       | _ => 0) + voteSuccBy (stepState s op) tr electionId voterId := rfl

lemma pubSucceeded_cons (s : VSState) (op : Op) (tr : List Op)
    (electionId : Nat) :
    pubSucceeded s (op :: tr) electionId =
      ((match op with
        | .publishResults _ _ e => decide (e = electionId) && (applyOp s op).isOk
        | _ => false) || pubSucceeded (stepState s op) tr electionId) := rfl

lemma voteCount_step (s : VSState) (op : Op) (electionId candidateId : Nat)
    (hg : GoodState s) :
    ((stepState s op).candidates electionId candidateId).voteCount =
      (s.candidates electionId candidateId).voteCount +
        (match op with
         | .vote _ _ e c =>
            if e = electionId ∧ c = candidateId ∧ (applyOp s op).isOk = true
            then 1 else 0
         | _ => 0) := by
  obtain ⟨hex, hcnt, hvc⟩ := hg
  cases hres : applyOp s op with
  | error err =>
    rw [stepState_of_error hres]
    cases op <;> simp [hres, Except.isOk, Except.toBool]
  | ok r =>
    obtain ⟨s', ev⟩ := r
    have hok : (applyOp s op).isOk = true := by
      rw [hres]
      rfl
    rw [stepState_of_ok hres]
    cases op with
    | createElection sender now name description startTime endTime =>
      simp only [applyOp] at hres
      unfold createElection at hres
      split_ifs at hres
      rw [Except.ok.injEq, Prod.mk.injEq] at hres
      obtain ⟨hs', -⟩ := hres
      subst hs'
      simp
    | addCandidate sender now e0 name info =>
      simp only [applyOp] at hres
      unfold addCandidate at hres
      split_ifs at hres
      rw [Except.ok.injEq, Prod.mk.injEq] at hres
      obtain ⟨hs', -⟩ := hres
      subst hs'
      dsimp only
      by_cases hcond : electionId = e0 ∧ candidateId = s.candidateCounts e0
      · rw [if_pos hcond]
        obtain ⟨he, hc⟩ := hcond
        have : (s.candidates electionId candidateId).voteCount = 0 := by
          apply hvc
          rw [he, hc]
        simp [this]
      · rw [if_neg hcond]
        simp
    | vote sender now e0 c0 =>
      simp only [hres, Except.isOk, Except.toBool, and_true]
      simp only [applyOp] at hres
      unfold vote at hres
      split_ifs at hres
      rw [Except.ok.injEq, Prod.mk.injEq] at hres
      obtain ⟨hs', -⟩ := hres
      subst hs'
      by_cases hcond : e0 = electionId ∧ c0 = candidateId
      · obtain ⟨h1, h2⟩ := hcond
        subst h1 h2
        simp
      · have hmir : ¬(electionId = e0 ∧ candidateId = c0) :=
          fun hand => hcond ⟨hand.1.symm, hand.2.symm⟩
        simp [hcond, hmir]
    | publishResults sender now e0 =>
      simp only [applyOp] at hres
      unfold publishResults at hres
      split_ifs at hres
      rw [Except.ok.injEq, Prod.mk.injEq] at hres
      obtain ⟨hs', -⟩ := hres
      subst hs'
      simp

lemma resultsPublished_step (s : VSState) (op : Op) (electionId : Nat) :
    (stepState s op).resultsPublished electionId =
      (s.resultsPublished electionId ||
        (match op with
         | .publishResults _ _ e => decide (e = electionId) && (applyOp s op).isOk
         | _ => false)) := by
  cases hres : applyOp s op with
  | error err =>
    rw [stepState_of_error hres]
    cases op <;> simp [hres, Except.isOk, Except.toBool]
  | ok r =>
    obtain ⟨s', ev⟩ := r
    rw [stepState_of_ok hres]
    cases op with
    | createElection sender now name description startTime endTime =>
      simp only [applyOp] at hres
      unfold createElection at hres
      split_ifs at hres
      rw [Except.ok.injEq, Prod.mk.injEq] at hres
      obtain ⟨hs', -⟩ := hres
      subst hs'
      simp
    | addCandidate sender now e0 name info =>
      simp only [applyOp] at hres
      unfold addCandidate at hres
      split_ifs at hres
      rw [Except.ok.injEq, Prod.mk.injEq] at hres
      obtain ⟨hs', -⟩ := hres
      subst hs'
      simp
    | vote sender now e0 c0 =>
      simp only [applyOp] at hres
      unfold vote at hres
      split_ifs at hres
      rw [Except.ok.injEq, Prod.mk.injEq] at hres
      obtain ⟨hs', -⟩ := hres
      subst hs'
      simp
    | publishResults sender now e0 =>
      simp only [hres, Except.isOk, Except.toBool, Bool.and_true]
      simp only [applyOp] at hres
      unfold publishResults at hres
      split_ifs at hres
      rw [Except.ok.injEq, Prod.mk.injEq] at hres
      obtain ⟨hs', -⟩ := hres
      subst hs'
      by_cases he : e0 = electionId
      · subst he
        simp
      · have hmir : ¬(electionId = e0) := fun h => he h.symm
        simp [he, hmir]

lemma hasVoted_step_mono (s : VSState) (op : Op) (electionId voterId : Nat)
    (h : s.hasVoted electionId voterId = true) :
    (stepState s op).hasVoted electionId voterId = true := by
  cases hres : applyOp s op with
  | error err =>
    rw [stepState_of_error hres]
    exact h
  | ok r =>
    obtain ⟨s', ev⟩ := r
    rw [stepState_of_ok hres]
    cases op with
    | createElection sender now name description startTime endTime =>
      simp only [applyOp] at hres
      unfold createElection at hres
      split_ifs at hres
      rw [Except.ok.injEq, Prod.mk.injEq] at hres
      obtain ⟨hs', -⟩ := hres
      subst hs'
      exact h
    | addCandidate sender now e0 name info =>
      simp only [applyOp] at hres
      unfold addCandidate at hres
      split_ifs at hres
      rw [Except.ok.injEq, Prod.mk.injEq] at hres
      obtain ⟨hs', -⟩ := hres
      subst hs'
      exact h
    | vote sender now e0 c0 =>
      simp only [applyOp] at hres
      unfold vote at hres
      split_ifs at hres
      rw [Except.ok.injEq, Prod.mk.injEq] at hres
      obtain ⟨hs', -⟩ := hres
      subst hs'
      dsimp only
      split
      · rfl
      · exact h
    | publishResults sender now e0 =>
      simp only [applyOp] at hres
      unfold publishResults at hres
      split_ifs at hres
      rw [Except.ok.injEq, Prod.mk.injEq] at hres
      obtain ⟨hs', -⟩ := hres
      subst hs'
      exact h

lemma hasVoted_run_mono (s : VSState) (tr : List Op) (electionId voterId : Nat)
    (h : s.hasVoted electionId voterId = true) :
    (run s tr).hasVoted electionId voterId = true :=
  run_preserve (fun st => st.hasVoted electionId voterId = true)
    (fun st op hst => hasVoted_step_mono st op electionId voterId hst) tr s h

lemma vote_ok_sets_hasVoted {s s' : VSState} {sender now electionId candidateId : Nat}
    {ev : List Event}
    (h : vote s sender now electionId candidateId = .ok (s', ev)) :
    s.hasVoted electionId sender = false ∧ s'.hasVoted electionId sender = true := by
  unfold vote at h
  split_ifs at h with h1 h2 h3 h4
  have hnv : s.hasVoted electionId sender = false := by simpa using h3
  rw [Except.ok.injEq, Prod.mk.injEq] at h
  obtain ⟨hs', -⟩ := h
  subst hs'
  exact ⟨hnv, by simp⟩

lemma vote_not_ok_of_voted (s : VSState) (sender now electionId candidateId : Nat)
    (h : s.hasVoted electionId sender = true) :
    (vote s sender now electionId candidateId).isOk = false := by
  cases hv : (vote s sender now electionId candidateId).isOk with
  | false => rfl
  | true =>
    obtain ⟨-, -, -, hnv, -⟩ :=
      (vote_ok_iff s sender now electionId candidateId).mp hv
    rw [h] at hnv
    cases hnv

lemma voteCount_run (electionId candidateId : Nat) :
    ∀ (tr : List Op) (s : VSState), GoodState s →
      ((run s tr).candidates electionId candidateId).voteCount =
        (s.candidates electionId candidateId).voteCount +
          voteSuccCount s tr electionId candidateId := by
  intro tr
  induction tr with
  | nil =>
    intro s _
    simp [run, voteSuccCount]
  | cons op rest ih =>
    intro s hg
    rw [run_cons, ih (stepState s op) (goodState_step s op hg),
      voteCount_step s op electionId candidateId hg, voteSuccCount_cons,
      Nat.add_assoc]

lemma resultsPublished_run (electionId : Nat) :
    ∀ (tr : List Op) (s : VSState),
      (run s tr).resultsPublished electionId =
        (s.resultsPublished electionId || pubSucceeded s tr electionId) := by
  intro tr
  induction tr with
  | nil =>
    intro s
    simp [run, pubSucceeded]
  | cons op rest ih =>
    intro s
    rw [run_cons, ih (stepState s op), resultsPublished_step s op electionId,
      pubSucceeded_cons, Bool.or_assoc]

lemma voteSuccBy_of_voted (electionId voterId : Nat) :
    ∀ (tr : List Op) (s : VSState), s.hasVoted electionId voterId = true →
      voteSuccBy s tr electionId voterId = 0 := by
  intro tr
  induction tr with
  | nil =>
    intro s _
    rfl
  | cons op rest ih =>
    intro s h
    rw [voteSuccBy_cons, ih (stepState s op) (hasVoted_step_mono s op _ _ h)]
    cases op with
    | createElection sender now name description startTime endTime => rfl
    | addCandidate sender now e0 name info => rfl
    | publishResults sender now e0 => rfl
    | vote sender now e0 c0 =>
      dsimp only
      rw [if_neg]
      rintro ⟨he, hv, hok⟩
      simp only [applyOp] at hok
      rw [he, hv] at hok
      rw [vote_not_ok_of_voted s voterId now electionId c0 h] at hok
      cases hok

lemma voteSuccBy_le_one (electionId voterId : Nat) :
    ∀ (tr : List Op) (s : VSState), voteSuccBy s tr electionId voterId ≤ 1 := by
  intro tr
  induction tr with
  | nil =>
    intro s
    exact Nat.zero_le 1
  | cons op rest ih =>
    intro s
    rw [voteSuccBy_cons]
    have htail := ih (stepState s op)
    cases op with
    | createElection sender now name description startTime endTime =>
      simpa using htail
    | addCandidate sender now e0 name info =>
      simpa using htail
    | publishResults sender now e0 =>
      simpa using htail
    | vote sender now e0 c0 =>
      dsimp only
      by_cases hcond : e0 = electionId ∧ sender = voterId ∧
          (applyOp s (Op.vote sender now e0 c0)).isOk = true
      · rw [if_pos hcond]
        obtain ⟨he, hv, hok⟩ := hcond
        cases hres2 : applyOp s (Op.vote sender now e0 c0) with
        | error err =>
          rw [hres2] at hok
          cases hok
        | ok r =>
          obtain ⟨s', ev⟩ := r
          have hstep := stepState_of_ok hres2
          simp only [applyOp] at hres2
          have hset := (vote_ok_sets_hasVoted hres2).2
          have hafter : (stepState s (Op.vote sender now e0 c0)).hasVoted
              electionId voterId = true := by
            rw [hstep, ← he, ← hv]
            exact hset
          rw [voteSuccBy_of_voted electionId voterId rest _ hafter]
      · rw [if_neg hcond]
        simpa using htail

lemma publishResults_eq_ok (s : VSState) (sender now electionId : Nat)
    (hown : sender = s.owner)
    (hex : (s.elections electionId).exists_ = true)
    (hend : (s.elections electionId).endTime < now) :
    publishResults s sender now electionId = .ok
      ({ s with
          resultsPublished := fun e =>
            if e = electionId then true else s.resultsPublished e },
        [.ResultsPublished electionId]) := by
  unfold publishResults
  simp [hown, hex, hend]

lemma createElection_ok_iff (s : VSState) (sender now : Nat)
    (name description : String) (startTime endTime : Nat) :
    (createElection s sender now name description startTime endTime).isOk = true ↔
      (sender = s.owner ∧ startTime < endTime ∧ now < startTime) := by
  unfold createElection
  split_ifs with h1 h2 h3 <;> simp_all [Except.isOk, Except.toBool]

lemma addCandidate_ok_iff (s : VSState) (sender now electionId : Nat)
    (name info : String) :
    (addCandidate s sender now electionId name info).isOk = true ↔
      (sender = s.owner ∧ (s.elections electionId).exists_ = true ∧
        now < (s.elections electionId).startTime) := by
  unfold addCandidate
  split_ifs with h1 h2 h3 <;> simp_all [Except.isOk, Except.toBool]

lemma publishResults_ok_iff (s : VSState) (sender now electionId : Nat) :
    (publishResults s sender now electionId).isOk = true ↔
      (sender = s.owner ∧ (s.elections electionId).exists_ = true ∧
        (s.elections electionId).endTime < now) := by
  unfold publishResults
  split_ifs with h1 h2 h3 <;> simp_all [Except.isOk, Except.toBool]

/-- Claim C4: `vote` checks its preconditions in the contract's modifier order, so
the first failing precondition determines the error: election existence
(`ElectionNotFound`), then the inclusive time window (`ElectionNotActive`),
then the has-voted flag (`AlreadyVoted`), then candidate id validity
(`InvalidCandidate`). -/
theorem vote_error_precedence (s : VSState) (sender now electionId candidateId : Nat) :
    ((s.elections electionId).exists_ = false →
      vote s sender now electionId candidateId = .error .ElectionNotFound) ∧
    ((s.elections electionId).exists_ = true →
      ¬ ((s.elections electionId).startTime ≤ now ∧
          now ≤ (s.elections electionId).endTime) →
      vote s sender now electionId candidateId = .error .ElectionNotActive) ∧
    ((s.elections electionId).exists_ = true →
      (s.elections electionId).startTime ≤ now →
      now ≤ (s.elections electionId).endTime →
      s.hasVoted electionId sender = true →
      vote s sender now electionId candidateId = .error .AlreadyVoted) ∧
    ((s.elections electionId).exists_ = true →
      (s.elections electionId).startTime ≤ now →
      now ≤ (s.elections electionId).endTime →
      s.hasVoted electionId sender = false →
      ¬ candidateId < s.candidateCounts electionId →
      vote s sender now electionId candidateId = .error .InvalidCandidate) := by
  refine ⟨fun hnex => ?_, fun hex hnact => ?_, fun hex h1 h2 hv => ?_,
    fun hex h1 h2 hv hc => ?_⟩
  · unfold vote
    simp [hnex]
  · unfold vote
    simp [hex, hnact]
  · unfold vote
    simp [hex, h1, h2, hv]
  · unfold vote
    simp [hex, h1, h2, hv, hc]

/-- Witness for C4: in the concrete scenario, voter `42` has voted, and a
second in-window vote fails with exactly `AlreadyVoted`. -/
theorem vote_error_precedence_witness :
    sampleVoted.hasVoted 0 42 = true ∧
    vote sampleVoted 42 16 0 0 = .error .AlreadyVoted :=
  ⟨rfl, (vote_error_precedence sampleVoted 42 16 0 0).2.2.1 rfl (by decide)
    (by decide) rfl⟩

/-- Claim C7: for an existing election, `vote` fails with `ElectionNotActive`
strictly before `startTime` and strictly after `endTime`, and succeeds at
both boundary instants when its other preconditions hold — the voting window
is inclusive at both ends. -/
theorem vote_window_inclusive (s : VSState) (sender now electionId candidateId : Nat)
    (hex : (s.elections electionId).exists_ = true) :
    (now < (s.elections electionId).startTime →
      vote s sender now electionId candidateId = .error .ElectionNotActive) ∧
    ((s.elections electionId).endTime < now →
      vote s sender now electionId candidateId = .error .ElectionNotActive) ∧
    ((now = (s.elections electionId).startTime ∨
        now = (s.elections electionId).endTime) →
      (s.elections electionId).startTime ≤ (s.elections electionId).endTime →
      s.hasVoted electionId sender = false →
      candidateId < s.candidateCounts electionId →
      (vote s sender now electionId candidateId).isOk = true) := by
  refine ⟨fun h => ?_, fun h => ?_, fun hb hse hv hc => ?_⟩
  · have hnact : ¬ ((s.elections electionId).startTime ≤ now ∧
        now ≤ (s.elections electionId).endTime) := by omega
    unfold vote
    simp [hex, hnact]
  · have hnact : ¬ ((s.elections electionId).startTime ≤ now ∧
        now ≤ (s.elections electionId).endTime) := by omega
    unfold vote
    simp [hex, hnact]
  · rw [vote_ok_iff]
    exact ⟨hex, by omega, by omega, hv, hc⟩

/-- Witness for C7: a fresh voter succeeds at the closing boundary
`now = endTime = 20` of the concrete election. -/
theorem vote_window_inclusive_witness :
    (sampleState.elections 0).exists_ = true ∧
    (vote sampleState 43 20 0 0).isOk = true :=
  ⟨rfl, (vote_window_inclusive sampleState 43 20 0 0 rfl).2.2
    (Or.inr (by decide)) (by decide) rfl (by decide)⟩

/-- Claim C3: a transaction whose precondition fails reverts: the committed storage
is exactly the pre-call storage, and in particular a rejected
`createElection` consumes no election id (`getElectionCount` is unchanged).
In the contract every `require` precedes every storage write, which the
embedding mirrors; `stepState` commits the post-state only on success. -/
theorem failed_op_state_unchanged (s : VSState) (op : Op) (err : Err)
    (h : applyOp s op = .error err) :
    stepState s op = s ∧
    getElectionCount (stepState s op) = getElectionCount s := by
  have hst := stepState_of_error h
  exact ⟨hst, by rw [hst]⟩

/-- Witness for C3: a non-owner `createElection` call fails with
`Unauthorized` and leaves the concrete state untouched. -/
theorem failed_op_state_unchanged_witness :
    applyOp sampleState (Op.createElection 1 8 "X" "d" 30 40) =
      .error .Unauthorized ∧
    stepState sampleState (Op.createElection 1 8 "X" "d" 30 40) = sampleState :=
  ⟨rfl,
    (failed_op_state_unchanged sampleState
      (Op.createElection 1 8 "X" "d" 30 40) .Unauthorized rfl).1⟩

/-- Claim C5: `createElection` succeeds exactly for the administrator with
`startTime < endTime` and `startTime` strictly in the future; on success it
stores the record under the next sequential id `electionCount` (an id not
previously in use, with an empty candidate roster), increments the counter,
and hands the new id to the caller in the `ElectionCreated` event (the
Solidity function has no return value; the event carries the id); otherwise
it fails with `Unauthorized`, `InvalidTimeRange`, or `StartNotInFuture`. -/
theorem createElection_correct (s : VSState) (sender now : Nat)
    (name description : String) (startTime endTime : Nat)
    (hs : Reachable s) :
    ((createElection s sender now name description startTime endTime).isOk = true ↔
      (sender = s.owner ∧ startTime < endTime ∧ now < startTime)) ∧
    (sender ≠ s.owner →
      createElection s sender now name description startTime endTime =
        .error .Unauthorized) ∧
    (sender = s.owner → ¬ startTime < endTime →
      createElection s sender now name description startTime endTime =
        .error .InvalidTimeRange) ∧
    (sender = s.owner → startTime < endTime → ¬ now < startTime →
      createElection s sender now name description startTime endTime =
        .error .StartNotInFuture) ∧
    (sender = s.owner → startTime < endTime → now < startTime →
      ∃ s', createElection s sender now name description startTime endTime =
          .ok (s', [.ElectionCreated s.electionCount name startTime endTime]) ∧
        s'.electionCount = s.electionCount + 1 ∧
        s'.elections s.electionCount =
          { name := name, description := description, startTime := startTime,
            endTime := endTime, exists_ := true } ∧
        (∀ i, i ≠ s.electionCount → s'.elections i = s.elections i) ∧
        (s.elections s.electionCount).exists_ = false ∧
        s'.candidateCounts s.electionCount = 0) := by
  obtain ⟨hex, hcnt, -⟩ := reachable_goodState hs
  refine ⟨createElection_ok_iff s sender now name description startTime endTime,
    fun h => ?_, fun h1 h2 => ?_, fun h1 h2 h3 => ?_, fun h1 h2 h3 => ?_⟩
  · unfold createElection
    simp [h]
  · unfold createElection
    simp [h1, h2]
  · unfold createElection
    simp [h1, h2, h3]
  · refine ⟨_, createElection_eq_ok s sender now name description startTime
      endTime h1 h2 h3, rfl, by simp, fun i hi => by simp [hi], ?_,
      hcnt s.electionCount (Nat.le_refl _)⟩
    cases hb : (s.elections s.electionCount).exists_ with
    | false => rfl
    | true => exact absurd ((hex s.electionCount).mp hb) (lt_irrefl _)

/-- Witness for C5: at the concrete reachable state, a non-owner call fails
with `Unauthorized`. -/
theorem createElection_correct_witness :
    (1 : Nat) ≠ sampleState.owner ∧
    createElection sampleState 1 8 "X" "d" 30 40 = .error .Unauthorized :=
  ⟨by decide,
    (createElection_correct sampleState 1 8 "X" "d" 30 40
      ⟨0, trSetup, rfl⟩).2.1 (by decide)⟩

/-- Claim C6: `addCandidate` by the administrator on an existing election fails
with `ElectionAlreadyStarted` whenever `now ≥ startTime` (including the
boundary instant `now = startTime`); with `now < startTime` it appends a
candidate under the next sequential per-election id with vote count `0`,
increments the per-election counter, and hands the new id to the caller in
the `CandidateAdded` event (the Solidity function has no return value; the
event carries the id). -/
theorem addCandidate_correct (s : VSState) (sender now electionId : Nat)
    (name info : String)
    (hsender : sender = s.owner)
    (hex : (s.elections electionId).exists_ = true) :
    ((s.elections electionId).startTime ≤ now →
      addCandidate s sender now electionId name info =
        .error .ElectionAlreadyStarted) ∧
    (now < (s.elections electionId).startTime →
      ∃ s', addCandidate s sender now electionId name info =
          .ok (s', [.CandidateAdded electionId (s.candidateCounts electionId) name]) ∧
        s'.candidateCounts electionId = s.candidateCounts electionId + 1 ∧
        s'.candidates electionId (s.candidateCounts electionId) =
          { name := name, info := info, voteCount := 0 } ∧
        (∀ e c, ¬ (e = electionId ∧ c = s.candidateCounts electionId) →
          s'.candidates e c = s.candidates e c) ∧
        (∀ e, e ≠ electionId → s'.candidateCounts e = s.candidateCounts e)) := by
  refine ⟨fun h => ?_, fun h => ?_⟩
  · have hns : ¬ now < (s.elections electionId).startTime := by omega
    unfold addCandidate
    simp [hsender, hex, hns]
  · refine ⟨_, addCandidate_eq_ok s sender now electionId name info hsender hex h,
      by simp, by simp, fun e c hec => by simp [hec], fun e he => by simp [he]⟩

/-- Witness for C6: in the concrete scenario the administrator is rejected
with `ElectionAlreadyStarted` at `now = startTime = 10`. -/
theorem addCandidate_correct_witness :
    (0 : Nat) = sampleState.owner ∧
    (sampleState.elections 0).exists_ = true ∧
    addCandidate sampleState 0 10 0 "C" "c" = .error .ElectionAlreadyStarted :=
  ⟨rfl, rfl,
    (addCandidate_correct sampleState 0 10 0 "C" "c" rfl rfl).1 (by decide)⟩

/-- Claim C8: `publishResults` succeeds exactly for the administrator on an
existing election strictly after its end time; its only effect is to set the
per-election published flag, and it is idempotent: a repeated call on the
already-published election succeeds again and commits the very same
storage state. -/
theorem publishResults_idempotent (s : VSState) (sender now electionId : Nat) :
    ((publishResults s sender now electionId).isOk = true ↔
      (sender = s.owner ∧ (s.elections electionId).exists_ = true ∧
        (s.elections electionId).endTime < now)) ∧
    (∀ s1 ev, publishResults s sender now electionId = .ok (s1, ev) →
      s1.resultsPublished electionId = true ∧
      (∀ e, e ≠ electionId → s1.resultsPublished e = s.resultsPublished e) ∧
      (∀ now2, (s.elections electionId).endTime < now2 →
        publishResults s1 sender now2 electionId =
          .ok (s1, [.ResultsPublished electionId]))) := by
  refine ⟨publishResults_ok_iff s sender now electionId, fun s1 ev hres => ?_⟩
  unfold publishResults at hres
  split_ifs at hres with h1 h2 h3
  have hown : sender = s.owner := by simpa using h1
  rw [Except.ok.injEq, Prod.mk.injEq] at hres
  obtain ⟨hs1, -⟩ := hres
  subst hs1
  refine ⟨by simp, fun e he => by simp [he], fun now2 hend => ?_⟩
  have heq := publishResults_eq_ok
    ({ s with resultsPublished := fun e =>
        if e = electionId then true else s.resultsPublished e })
    sender now2 electionId hown (by simpa using h2) (by simpa using hend)
  rw [heq]
  have hfix : (fun e => if e = electionId then true
      else if e = electionId then true else s.resultsPublished e) =
      (fun e => if e = electionId then true else s.resultsPublished e) := by
    funext e
    by_cases he : e = electionId <;> simp [he]
  simp only [hfix]

/-- Witness for C8: publishing the concrete election at time `21` succeeds. -/
theorem publishResults_idempotent_witness :
    (publishResults sampleVoted 0 21 0).isOk = true :=
  (publishResults_idempotent sampleVoted 0 21 0).1.mpr ⟨rfl, rfl, by decide⟩

/-- Counterexample to C1 as stated: in the concrete scenario voter `42`
successfully votes at time `15`; a later `castVote` by the same voter in the
same election, at time `25` (after the window), fails — but with
`ElectionNotActive`, not `AlreadyVoted`, because the contract checks the
activity window before the has-voted flag. -/
theorem castVote_later_error_not_alreadyVoted :
    (applyOp (run (initState 0) trSetup) (Op.vote 42 15 0 0)).isOk = true ∧
    sampleVoted.hasVoted 0 42 = true ∧
    applyOp sampleVoted (Op.vote 42 25 0 1) = .error .ElectionNotActive ∧
    Err.ElectionNotActive ≠ Err.AlreadyVoted :=
  ⟨rfl, rfl, rfl, by decide⟩

/-- Claim C1 (amended): for every (electionId, voter) pair at most one `castVote`
ever succeeds along any transaction sequence from deployment; the recorded
has-voted membership is never cleared by any operation; once the voter has
voted, every later `castVote` by them in that election fails, and it fails
with `AlreadyVoted` whenever the earlier preconditions (election exists and
is active) hold at that time. -/
theorem castVote_at_most_once (deployer : Nat) (tr : List Op)
    (electionId voterId : Nat) :
    voteSuccBy (initState deployer) tr electionId voterId ≤ 1 ∧
    (∀ (s : VSState) (op : Op), s.hasVoted electionId voterId = true →
      (stepState s op).hasVoted electionId voterId = true) ∧
    (∀ (s : VSState) (now candidateId : Nat),
      s.hasVoted electionId voterId = true →
      (vote s voterId now electionId candidateId).isOk = false) ∧
    (∀ (s : VSState) (now candidateId : Nat),
      s.hasVoted electionId voterId = true →
      (s.elections electionId).exists_ = true →
      (s.elections electionId).startTime ≤ now →
      now ≤ (s.elections electionId).endTime →
      vote s voterId now electionId candidateId = .error .AlreadyVoted) := by
  refine ⟨voteSuccBy_le_one electionId voterId tr (initState deployer),
    fun s op h => hasVoted_step_mono s op electionId voterId h,
    fun s now candidateId h => vote_not_ok_of_voted s voterId now electionId
      candidateId h,
    fun s now candidateId h hex h1 h2 => ?_⟩
  unfold vote
  simp [hex, h1, h2, h]

/-- Witness for C1 (amended): along the concrete trace with two vote
attempts by voter `42`, exactly one succeeds, and the in-window repeat
attempt fails with `AlreadyVoted`. -/
theorem castVote_at_most_once_witness :
    voteSuccBy (initState 0)
      (trSetup ++ [Op.vote 42 15 0 0, Op.vote 42 18 0 1]) 0 42 ≤ 1 ∧
    sampleVoted.hasVoted 0 42 = true ∧
    vote sampleVoted 42 18 0 1 = .error .AlreadyVoted :=
  ⟨(castVote_at_most_once 0
      (trSetup ++ [Op.vote 42 15 0 0, Op.vote 42 18 0 1]) 0 42).1,
    rfl,
    (castVote_at_most_once 0
      (trSetup ++ [Op.vote 42 15 0 0, Op.vote 42 18 0 1]) 0 42).2.2.2
      sampleVoted 18 1 rfl rfl (by decide) (by decide)⟩

/-- Claim C9: the results-published flag of every election starts `false` at
deployment, is preserved `true` by every transaction (and stays `true` along
every further run), and can flip from `false` to `true` only through a
successful `publishResults` by the owner strictly after the election's end
time. -/
theorem resultsPublished_monotone (electionId : Nat) :
    (∀ deployer, (initState deployer).resultsPublished electionId = false) ∧
    (∀ (s : VSState) (op : Op), s.resultsPublished electionId = true →
      (stepState s op).resultsPublished electionId = true) ∧
    (∀ (s : VSState) (op : Op), s.resultsPublished electionId = false →
      (stepState s op).resultsPublished electionId = true →
      ∃ sender now, op = .publishResults sender now electionId ∧
        sender = s.owner ∧ (s.elections electionId).exists_ = true ∧
        (s.elections electionId).endTime < now) ∧
    (∀ (s : VSState) (tr : List Op), s.resultsPublished electionId = true →
      (run s tr).resultsPublished electionId = true) := by
  refine ⟨fun _ => rfl, fun s op h => ?_, fun s op h1 h2 => ?_, fun s tr h => ?_⟩
  · rw [resultsPublished_step]
    simp [h]
  · rw [resultsPublished_step, h1, Bool.false_or] at h2
    cases op with
    | createElection sender now name description startTime endTime => cases h2
    | addCandidate sender now e0 name info => cases h2
    | vote sender now e0 c0 => cases h2
    | publishResults sender now e0 =>
      dsimp only at h2
      rw [Bool.and_eq_true, decide_eq_true_eq] at h2
      obtain ⟨he0, hok⟩ := h2
      subst he0
      simp only [applyOp] at hok
      obtain ⟨hown, hexx, hend⟩ :=
        (publishResults_ok_iff s sender now _).mp hok
      exact ⟨sender, now, rfl, hown, hexx, hend⟩
  · refine run_preserve (fun st => st.resultsPublished electionId = true)
      (fun st op hst => ?_) tr s h
    show (stepState st op).resultsPublished electionId = true
    rw [resultsPublished_step]
    simp [show st.resultsPublished electionId = true from hst]

/-- Witness for C9: the flag of the concrete published election is `true`
and remains `true` after a further transaction. -/
theorem resultsPublished_monotone_witness :
    statePub.resultsPublished 0 = true ∧
    (stepState statePub (Op.vote 7 99 0 0)).resultsPublished 0 = true :=
  ⟨rfl, (resultsPublished_monotone 0).2.1 statePub (Op.vote 7 99 0 0) rfl⟩

/-- Claim C2: for an existing election and one of its candidates, `getVoteCount`
fails with `ResultsNotPublished` as long as no `publishResults` has succeeded
for that election along the run, and once one has succeeded it returns
exactly the number of successful `castVote` transactions for that candidate. -/
theorem getVoteCount_publication_gate (deployer : Nat) (tr : List Op)
    (electionId candidateId : Nat)
    (he : electionId < (run (initState deployer) tr).electionCount)
    (hc : candidateId < (run (initState deployer) tr).candidateCounts electionId) :
    (pubSucceeded (initState deployer) tr electionId = false →
      getVoteCount (run (initState deployer) tr) electionId candidateId =
        .error .ResultsNotPublished) ∧
    (pubSucceeded (initState deployer) tr electionId = true →
      getVoteCount (run (initState deployer) tr) electionId candidateId =
        .ok (voteSuccCount (initState deployer) tr electionId candidateId)) := by
  have hflag := resultsPublished_run electionId tr (initState deployer)
  rw [show (initState deployer).resultsPublished electionId = false from rfl,
    Bool.false_or] at hflag
  have hcount := voteCount_run electionId candidateId tr (initState deployer)
    (goodState_init deployer)
  rw [show ((initState deployer).candidates electionId candidateId).voteCount = 0
    from rfl, Nat.zero_add] at hcount
  constructor
  · intro hpub
    rw [hpub] at hflag
    unfold getVoteCount
    simp [he, hc, hflag]
  · intro hpub
    rw [hpub] at hflag
    unfold getVoteCount
    simp [he, hc, hflag, hcount]

/-- Witness for C2: along the concrete published trace, `getVoteCount`
returns the single successful vote for candidate `0`, and that trace-level
count evaluates to `1`. -/
theorem getVoteCount_publication_gate_witness :
    0 < statePub.electionCount ∧
    0 < statePub.candidateCounts 0 ∧
    pubSucceeded (initState 0) trPub 0 = true ∧
    getVoteCount statePub 0 0 = .ok (voteSuccCount (initState 0) trPub 0 0) ∧
    voteSuccCount (initState 0) trPub 0 0 = 1 :=
  ⟨by decide, by decide, rfl,
    (getVoteCount_publication_gate 0 trPub 0 0 (by decide) (by decide)).2 rfl,
    rfl⟩

/-- Claim C10: in every reachable state, for every election the vote counts over
its candidate roster sum to the number of distinct voter identities recorded
as having voted in it (exhibited as a finite set agreeing with the has-voted
ledger). -/
theorem tally_equals_distinct_voters (s : VSState) (hs : Reachable s)
    (electionId : Nat) :
    ∃ V : Finset Nat,
      (∀ a, s.hasVoted electionId a = true ↔ a ∈ V) ∧
      (∑ c ∈ Finset.range (s.candidateCounts electionId),
        (s.candidates electionId c).voteCount) = V.card :=
  reachable_tallyInv hs electionId

/-- Witness for C10: the invariant instantiated at the concrete state with
one recorded voter. -/
theorem tally_equals_distinct_voters_witness :
    Reachable sampleVoted ∧
    ∃ V : Finset Nat,
      (∀ a, sampleVoted.hasVoted 0 a = true ↔ a ∈ V) ∧
      (∑ c ∈ Finset.range (sampleVoted.candidateCounts 0),
        (sampleVoted.candidates 0 c).voteCount) = V.card :=
  ⟨⟨0, trSetup ++ [Op.vote 42 15 0 0], rfl⟩,
    tally_equals_distinct_voters sampleVoted
      ⟨0, trSetup ++ [Op.vote 42 15 0 0], rfl⟩ 0⟩

end VotingSystem
